import Mathlib

/-!
# Bootstrapper: DN-gated mutual TLS download and server lifecycle

A shallow embedding of `bootstrapper/bootstrapper.go`.

* Go values are plain Lean structures; a nil pointer or nil interface is `none`.
* A Go `error` result is `Option GoError` (`none` is `nil`); a `(value, error)` pair is
  `Except GoError value`.
* Calls that leave the process (building a request, the HTTP round trip, binding a TCP
  listener, reading the key pair, closing a listener, starting the serving goroutine,
  logging, printing, invoking the installer) are recorded, in program order, in a trace
  of `Event`s returned next to the result.
* Functions of the standard library and of sibling packages whose code is not part of
  `bootstrapper.go` are the fields of `Env`.
* A run-time fault (nil dereference) is the `panicked` outcome.
-/

namespace bootstrapper

/-! ## Data model -/

/-- Go `error` values built by this package: `errors.Error`, `errors.Errorf` and
`fmt.Errorf` give a message, `errors.WrapError` keeps its cause. -/
inductive GoError where
  | Error (msg : String)
  | WrapError (cause : GoError) (msg : String)
  deriving DecidableEq, Repr

/-- The record `pkix.Name` of the standard library (its string fields). -/
structure Name where
  Country : List String := []
  Organization : List String := []
  OrganizationalUnit : List String := []
  Locality : List String := []
  Province : List String := []
  StreetAddress : List String := []
  PostalCode : List String := []
  SerialNumber : String := ""
  CommonName : String := ""
  deriving DecidableEq, Repr

/-- An `x509.Certificate`, reduced to its subject and raw bytes. -/
structure Certificate where
  Subject : Name
  Raw : List Nat := []
  deriving DecidableEq, Repr

/-- An `x509.CertPool`: the certificates it holds. -/
abbrev CertPool := List Certificate

/-- A `tls.Certificate`: a certificate chain with its private key. -/
structure TlsCertificate where
  Certificate : List (List Nat)
  PrivateKey : List Nat
  deriving DecidableEq, Repr

/-- The type `tls.ClientAuthType`. -/
inductive ClientAuthType where
  | NoClientCert
  | RequestClientCert
  | RequireAnyClientCert
  | VerifyClientCertIfGiven
  | RequireAndVerifyClientCert
  deriving DecidableEq, Repr

/-- The fields of `tls.Config` this package sets; the defaults are Go zero values. -/
structure TlsConfig where
  RootCAs : Option CertPool := none
  NextProtos : List String := []
  Certificates : List TlsCertificate := []
  ClientAuth : ClientAuthType := ClientAuthType.NoClientCert
  ClientCAs : Option CertPool := none
  deriving DecidableEq, Repr

/-- An `http.Transport`. -/
structure Transport where
  TLSClientConfig : Option TlsConfig := none
  deriving DecidableEq, Repr

/-- An `http.Client`. -/
structure Client where
  Transport : Transport
  deriving DecidableEq, Repr

/-- An `http.Request` as built by `http.NewRequest`. -/
structure Request where
  Method : String
  URL : String
  deriving DecidableEq, Repr

/-- A `tls.ConnectionState`. -/
structure ConnectionState where
  PeerCertificates : List Certificate
  deriving DecidableEq, Repr

/-- An `http.Response`; `TLS` is nil (`none`) for a response received without TLS. -/
structure Response where
  Status : String
  StatusCode : Int
  TLS : Option ConnectionState
  Body : List Nat
  deriving DecidableEq, Repr

/-- The constant `http.StatusOK`. -/
def StatusOK : Int := 200

/-- The constant `StatusUnprocessableEntity` of this package. -/
def StatusUnprocessableEntity : Int := 422

/-- A `*log.Logger`. -/
structure Logger where
  id : Nat
  deriving DecidableEq, Repr

/-- The interface `package_installer.PackageInstaller`. -/
structure PackageInstaller where
  Install : List Nat → Option GoError

/-- The struct `auth.CertificateVerifier`. -/
structure CertificateVerifier where
  AllowedNames : List Name
  deriving DecidableEq, Repr

/-- The handlers `Listen` registers. -/
inductive Handler where
  | SelfUpdateHandler (packageInstaller : PackageInstaller)
  | Wrap (certAuthRules : CertificateVerifier) (inner : Handler)

/-- An `http.ServeMux`: its routes. -/
structure ServeMux where
  routes : List (String × Handler)

/-- The fields of `http.Server` this package sets. -/
structure Server where
  Handler : Option ServeMux := none
  ErrorLog : Option Logger := none

/-- A `*net.TCPListener` returned by `net.ListenTCP`. -/
structure TCPListener where
  fd : Nat
  port : Int
  deriving DecidableEq, Repr

/-- The listener built by `tls.NewListener`. -/
structure Listener where
  inner : TCPListener
  config : TlsConfig
  deriving DecidableEq, Repr

/-- The struct `Bootstrapper`; `wg` is the counter of the `sync.WaitGroup`. -/
structure Bootstrapper where
  CertFile : String
  KeyFile : String
  CACertPem : String
  AllowedNames : List String
  Logger : Option Logger := none
  server : Server := {}
  listener : Option Listener := none
  started : Bool := false
  closing : Bool := false
  wg : Int := 0
  PackageInstaller : PackageInstaller

/-- Log levels of the `logger` package used here. -/
inductive LogLevel where
  | Info
  | Error
  deriving DecidableEq, Repr

/-- What a run does outside the process, in program order. Log events carry the tag and
the format string of the call (its arguments are not rendered); `listenTCP` carries the
listener the call bound, `none` when the bind failed. -/
inductive Event where
  | log (level : LogLevel) (tag : String) (format : String)
  | newRequest (method : String) (url : String)
  | roundTrip (req : Request)
  | install (body : List Nat)
  | listenTCP (port : Int) (bound : Option TCPListener)
  | loadX509KeyPair (certFile : String) (keyFile : String)
  | goServe (l : Listener)
  | close (l : Listener)
  | printf (format : String) (err : GoError)
  deriving DecidableEq, Repr

/-- Library and sibling-package functions called by `bootstrapper.go`. -/
structure Env where
  /-- The method `Parse` of `auth.DistinguishedNamesParser`. -/
  Parse : String → Except GoError Name
  /-- The method `Verify` of `auth.CertificateVerifier`; `none` is a nil error. -/
  Verify : CertificateVerifier → List Certificate → Option GoError
  /-- The certificates `AppendCertsFromPEM` parses out of a PEM text. -/
  pemCertificates : String → List Certificate
  /-- The function `http.NewRequest` with a nil body. -/
  NewRequest : String → String → Except GoError Request
  /-- The method `Do` of `http.Client`. -/
  Do : Client → Request → Except GoError Response
  /-- The function `net.ListenTCP` on network tcp at the given port. -/
  ListenTCP : Int → Except GoError TCPListener
  /-- The function `tls.LoadX509KeyPair`. -/
  LoadX509KeyPair : String → String → Except GoError TlsCertificate

/-- How a Go function whose only result is an `error` ends. -/
inductive Outcome where
  | returned (err : Option GoError)
  | panicked (reason : String)
  deriving DecidableEq, Repr

/-! ## Operations -/

/-- The method `AppendCertsFromPEM` of `x509.CertPool`: the grown pool and whether any
certificate was parsed. -/
def AppendCertsFromPEM (env : Env) (pool : CertPool) (pem : String) : CertPool × Bool :=
  let certs := env.pemCertificates pem
  (pool ++ certs, !certs.isEmpty)

/-- The `for ... range b.AllowedNames` loop of `parseNames`, `pkixNames` being the slice
built so far. -/
def parseNamesLoop (env : Env) : List String → List Name → Except GoError (List Name)
  | [], pkixNames => Except.ok pkixNames
  | dn :: rest, pkixNames =>
    match env.Parse dn with
    | Except.error err => Except.error (GoError.WrapError err "Invalid AllowedNames")
    | Except.ok pkixName => parseNamesLoop env rest (pkixNames ++ [pkixName])

/-- The method `parseNames`. -/
def Bootstrapper.parseNames (env : Env) (b : Bootstrapper) : Except GoError (List Name) :=
  if b.AllowedNames.length == 0 then
    Except.error (GoError.Error "AllowedNames must be specified")
  else
    parseNamesLoop env b.AllowedNames []

/-- The method `httpClient`. -/
def Bootstrapper.httpClient (env : Env) (b : Bootstrapper) : Except GoError Client :=
  let (certPool, ok) := AppendCertsFromPEM env [] b.CACertPem
  if !ok then
    Except.error (GoError.Error "Failed to load CA cert")
  else
    let tr : Transport :=
      { TLSClientConfig := some
          { RootCAs := some certPool
            ClientAuth := ClientAuthType.RequireAndVerifyClientCert } }
    Except.ok { Transport := tr }

/-- The method `Download`: its outcome and the trace of what it did. -/
def Bootstrapper.Download (env : Env) (b : Bootstrapper) (url : String) :
    Outcome × List Event :=
  match b.parseNames env with
  | Except.error err => (Outcome.returned (some err), [])
  | Except.ok pkixNames =>
    let t1 := [Event.log LogLevel.Info "Download" "Downloading %s...",
               Event.newRequest "GET" url]
    match env.NewRequest "GET" url with
    | Except.error err =>
      (Outcome.returned (some err),
        t1 ++ [Event.log LogLevel.Error "Download" "Couldn't make the request to %s: %s"])
    | Except.ok req =>
      match b.httpClient env with
      | Except.error err =>
        (Outcome.returned (some err),
          t1 ++ [Event.log LogLevel.Error "Download" "Couldn't make the http client %s"])
      | Except.ok client =>
        let t2 := t1 ++ [Event.roundTrip req]
        match env.Do client req with
        | Except.error err =>
          (Outcome.returned (some err),
            t2 ++ [Event.log LogLevel.Error "Download" "Couldn't do the request (%s): %s"])
        | Except.ok resp =>
          if resp.StatusCode != StatusOK then
            let err := GoError.Error ("Download failed, bad response: " ++ resp.Status)
            (Outcome.returned (some err),
              t2 ++ [Event.log LogLevel.Error "Download" "Download failed, bad response: %s"])
          else
            let certificateVerifier : CertificateVerifier := { AllowedNames := pkixNames }
            match resp.TLS with
            | none => (Outcome.panicked "nil pointer dereference", t2)
            | some tlsState =>
              match env.Verify certificateVerifier tlsState.PeerCertificates with
              | some err => (Outcome.returned (some err), t2)
              | none =>
                let t3 := t2 ++
                  [Event.log LogLevel.Info "Download" "Downloading complete. Installing...",
                   Event.install resp.Body]
                match b.PackageInstaller.Install resp.Body with
                | some err => (Outcome.returned (some err), t3)
                | none =>
                  (Outcome.returned none,
                    t3 ++ [Event.log LogLevel.Info "Download" "Download succeeded"])

/-- What `Listen` leaves behind: its error result, the receiver and the trace. -/
structure ListenResult where
  err : Option GoError
  b : Bootstrapper
  trace : List Event

/-- The method `Listen`. The goroutine it starts is the event `goServe`; what that
goroutine does once `Serve` returns is `Bootstrapper.serveReturned`. -/
def Bootstrapper.Listen (env : Env) (b : Bootstrapper) (port : Int) : ListenResult :=
  match b.parseNames env with
  | Except.error err => { err := some err, b := b, trace := [] }
  | Except.ok pkixNames =>
    let certAuthRules : CertificateVerifier := { AllowedNames := pkixNames }
    let serveMux : ServeMux :=
      { routes := [("/self-update",
          Handler.Wrap certAuthRules (Handler.SelfUpdateHandler b.PackageInstaller))] }
    let b1 := { b with server := { Handler := some serveMux, ErrorLog := b.Logger } }
    match env.ListenTCP port with
    | Except.error err =>
      { err := some err, b := b1, trace := [Event.listenTCP port none] }
    | Except.ok listener =>
      let t1 := [Event.listenTCP port (some listener),
                 Event.loadX509KeyPair b.CertFile b.KeyFile]
      match env.LoadX509KeyPair b.CertFile b.KeyFile with
      | Except.error err => { err := some err, b := b1, trace := t1 }
      | Except.ok serverCert =>
        let (certPool, ok) := AppendCertsFromPEM env [] b.CACertPem
        if !ok then
          { err := some (GoError.Error
              ("Huh? root PEM looks weird!\n" ++ b.CACertPem ++ "\n")),
            b := b1, trace := t1 }
        else
          let config : TlsConfig :=
            { NextProtos := ["http/1.1"]
              Certificates := [serverCert]
              ClientAuth := ClientAuthType.RequireAndVerifyClientCert
              ClientCAs := some certPool }
          let tlsListener : Listener := { inner := listener, config := config }
          let b2 := { b1 with listener := some tlsListener, started := true, wg := b1.wg + 1 }
          { err := none, b := b2, trace := t1 ++ [Event.goServe tlsListener] }

/-- The rest of the goroutine started by `Listen`, run on the receiver as it is when
`b.server.Serve` returns `err`: the error is printed unless `closing` is set, then the
deferred `wg.Done` runs. -/
def Bootstrapper.serveReturned (b : Bootstrapper) (err : Option GoError) :
    Bootstrapper × List Event :=
  let printed : List Event :=
    match err with
    | some e => if !b.closing then [Event.printf "run(): %s\n" e] else []
    | none => []
  ({ b with wg := b.wg - 1 }, printed)

/-- What `StopListening` leaves behind; `panicked` is the nil dereference of
`b.listener.Close()` on a receiver that is started without a listener. -/
structure StopResult where
  b : Bootstrapper
  trace : List Event
  panicked : Bool

/-- The method `StopListening`. -/
def Bootstrapper.StopListening (b : Bootstrapper) : StopResult :=
  if b.started then
    let b1 := { b with closing := true }
    match b1.listener with
    | none => { b := b1, trace := [], panicked := true }
    | some l => { b := { b1 with started := false }, trace := [Event.close l], panicked := false }
  else
    { b := b, trace := [], panicked := false }

/-- The method `WaitForServerToExit`, that is `b.wg.Wait()`: it returns at once when the
counter is zero (`some ()`), and otherwise blocks the caller until the serving
goroutines have called `Done` (`none`). -/
def Bootstrapper.WaitForServerToExit (b : Bootstrapper) : Option Unit :=
  if b.wg == 0 then some () else none

/-- A control call made by the single control thread. -/
inductive Control where
  | Listen (port : Int)
  | StopListening
  deriving DecidableEq, Repr

/-- The receiver after one control call. -/
def Bootstrapper.control (env : Env) (b : Bootstrapper) : Control → Bootstrapper
  | Control.Listen port => (b.Listen env port).b
  | Control.StopListening => b.StopListening.b

/-- The receiver after a sequence of control calls, made one after the other. -/
def Bootstrapper.controls (env : Env) (b : Bootstrapper) (calls : List Control) :
    Bootstrapper :=
  calls.foldl (Bootstrapper.control env) b

/-- Whether an event is a call of the installer. -/
def Event.isInstall : Event → Bool
  | Event.install _ => true
  | _ => false

/-! ## A concrete deployment, used to run the definitions -/

/-- The certificate authority of the sample deployment. -/
def sampleCA : Certificate := { Subject := { CommonName := "fleet-ca" } }

/-- A peer certificate whose subject is on the sample allowlist. -/
def opsCert : Certificate := { Subject := { CommonName := "ops-controller" } }

/-- A peer certificate signed by the same authority whose subject is not allowed. -/
def attackerCert : Certificate := { Subject := { CommonName := "attacker" } }

/-- The key pair of the sample node. -/
def sampleKeyPair : TlsCertificate := { Certificate := [[48, 130]], PrivateKey := [7] }

/-- The TCP listener the sample host hands out for port 8443. -/
def sampleTCP : TCPListener := { fd := 3, port := 8443 }

/-- The sample world: two well-formed DN strings, one PEM text that holds a
certificate, one free port, one readable key pair, and four download urls. -/
def sampleEnv : Env where
  Parse := fun dn =>
    if dn = "CN=ops-controller" then Except.ok { CommonName := "ops-controller" }
    else if dn = "CN=backup-controller" then Except.ok { CommonName := "backup-controller" }
    else Except.error (GoError.Error "unparseable distinguished name")
  Verify := fun v chain =>
    match chain with
    | [] => some (GoError.Error "no peer certificates")
    | leaf :: _ =>
      if v.AllowedNames.any (fun n => n.CommonName == leaf.Subject.CommonName) then none
      else some (GoError.Error "subject not allowed")
  pemCertificates := fun pem => if pem = "FLEET-CA-PEM" then [sampleCA] else []
  NewRequest := fun method url =>
    if url = "" then Except.error (GoError.Error "empty url")
    else Except.ok { Method := method, URL := url }
  Do := fun _ req =>
    if req.URL = "https://updates/pkg" then
      Except.ok { Status := "200 OK", StatusCode := 200,
                  TLS := some { PeerCertificates := [opsCert] }, Body := [1, 2, 3] }
    else if req.URL = "https://updates/broken" then
      Except.ok { Status := "200 OK", StatusCode := 200,
                  TLS := some { PeerCertificates := [opsCert] }, Body := [9] }
    else if req.URL = "https://mirror/pkg" then
      Except.ok { Status := "200 OK", StatusCode := 200,
                  TLS := some { PeerCertificates := [attackerCert] }, Body := [1, 2, 3] }
    else if req.URL = "https://updates/missing" then
      Except.ok { Status := "404 Not Found", StatusCode := 404,
                  TLS := some { PeerCertificates := [opsCert] }, Body := [] }
    else if req.URL = "http://updates/pkg" then
      Except.ok { Status := "200 OK", StatusCode := 200, TLS := none, Body := [1, 2, 3] }
    else Except.error (GoError.Error "connection refused")
  ListenTCP := fun port =>
    if port = 8443 then Except.ok sampleTCP
    else Except.error (GoError.Error "address already in use")
  LoadX509KeyPair := fun certFile keyFile =>
    if certFile = "agent.crt" ∧ keyFile = "agent.key" then Except.ok sampleKeyPair
    else Except.error (GoError.Error "failed to load key pair")

/-- The sample installer: it accepts the package `[1, 2, 3]` and nothing else. -/
def sampleInstaller : PackageInstaller where
  Install := fun body =>
    if body = [1, 2, 3] then none else some (GoError.Error "malformed package")

/-- A well-configured node that has not been started. -/
def sampleNode : Bootstrapper where
  CertFile := "agent.crt"
  KeyFile := "agent.key"
  CACertPem := "FLEET-CA-PEM"
  AllowedNames := ["CN=ops-controller", "CN=backup-controller"]
  PackageInstaller := sampleInstaller

/-- The sample node without an allowlist. -/
def unconfiguredNode : Bootstrapper := { sampleNode with AllowedNames := [] }

/-- The sample node with a CA text that is not PEM. -/
def badPemNode : Bootstrapper := { sampleNode with CACertPem := "not a pem" }

/-- The sample node with a malformed second allowlist entry. -/
def badNamesNode : Bootstrapper :=
  { sampleNode with AllowedNames := ["CN=ops-controller", "ops-controller"] }

/-! ## Helper lemmas -/

/-- On an empty AllowedNames `parseNames` is its first error. -/
theorem parseNames_of_nil (env : Env) (b : Bootstrapper) (h : b.AllowedNames = []) :
    b.parseNames env = Except.error (GoError.Error "AllowedNames must be specified") := by
  simp [Bootstrapper.parseNames, h]

/-- On a non-empty AllowedNames `parseNames` is its loop, started on the empty slice. -/
theorem parseNames_of_ne_nil (env : Env) (b : Bootstrapper) (h : b.AllowedNames ≠ []) :
    b.parseNames env = parseNamesLoop env b.AllowedNames [] := by
  have hlen : b.AllowedNames.length ≠ 0 := by
    intro h0
    exact h (List.length_eq_zero.mp h0)
  simp [Bootstrapper.parseNames, hlen]

/-- A loop that ends well has appended to the slice one parsed name for each entry, in order. -/
theorem parseNamesLoop_ok (env : Env) (l : List String) :
    ∀ (acc names : List Name), parseNamesLoop env l acc = Except.ok names →
      ∃ ns, names = acc ++ ns ∧ l.map env.Parse = ns.map Except.ok := by
  induction l with
  | nil =>
    intro acc names h
    simp only [parseNamesLoop, Except.ok.injEq] at h
    exact ⟨[], by simp [h], rfl⟩
  | cons dn rest ih =>
    intro acc names h
    unfold parseNamesLoop at h
    cases hp : env.Parse dn with
    | error e => simp [hp] at h
    | ok n =>
      simp only [hp] at h
      obtain ⟨ns, hns, hmap⟩ := ih (acc ++ [n]) names h
      exact ⟨n :: ns, by simp [hns], by simp [hp, hmap]⟩

/-- A loop that ends in an error stopped at the first entry the parser rejects. -/
theorem parseNamesLoop_error (env : Env) (l : List String) :
    ∀ (acc : List Name) (err : GoError), parseNamesLoop env l acc = Except.error err →
      ∃ pre dn post e, l = pre ++ dn :: post ∧ (∀ d ∈ pre, ∃ n, env.Parse d = Except.ok n) ∧
        env.Parse dn = Except.error e ∧ err = GoError.WrapError e "Invalid AllowedNames" := by
  induction l with
  | nil =>
    intro acc err h
    simp [parseNamesLoop] at h
  | cons dn rest ih =>
    intro acc err h
    unfold parseNamesLoop at h
    cases hp : env.Parse dn with
    | error e =>
      simp only [hp, Except.error.injEq] at h
      exact ⟨[], dn, rest, e, rfl, by simp, hp, h.symm⟩
    | ok n =>
      simp only [hp] at h
      obtain ⟨pre, d, post, e, hl, hpre, hd, he⟩ := ih (acc ++ [n]) err h
      refine ⟨dn :: pre, d, post, e, by simp [hl], ?_, hd, he⟩
      intro x hx
      rcases List.mem_cons.mp hx with rfl | hx
      · exact ⟨n, hp⟩
      · exact hpre x hx

/-- A loop over a list with a rejected entry ends in an error. -/
theorem parseNamesLoop_rejects (env : Env) (l : List String) :
    ∀ (acc : List Name), (∃ dn ∈ l, ∃ e, env.Parse dn = Except.error e) →
      ∃ err, parseNamesLoop env l acc = Except.error err := by
  induction l with
  | nil =>
    intro acc h
    simp at h
  | cons dn rest ih =>
    intro acc h
    unfold parseNamesLoop
    cases hp : env.Parse dn with
    | error e => exact ⟨_, rfl⟩
    | ok n =>
      obtain ⟨d, hd, e, he⟩ := h
      rcases List.mem_cons.mp hd with rfl | hd
      · rw [hp] at he
        cases he
      · exact ih (acc ++ [n]) ⟨d, hd, e, he⟩

/-! ## Claims -/

/-- C1: with an empty AllowedNames, `Download` and `Listen` both return the error
"AllowedNames must be specified" with an empty trace (no request built, no round trip,
no TCP listener bound, no installer call), and `Listen` leaves the receiver unchanged. -/
theorem empty_AllowedNames_fails_before_network (env : Env) (b : Bootstrapper)
    (url : String) (port : Int) (h : b.AllowedNames = []) :
    b.Download env url =
        (Outcome.returned (some (GoError.Error "AllowedNames must be specified")), []) ∧
      (b.Listen env port).err = some (GoError.Error "AllowedNames must be specified") ∧
      (b.Listen env port).trace = [] ∧
      (b.Listen env port).b = b := by
  have hp := parseNames_of_nil env b h
  simp [Bootstrapper.Download, Bootstrapper.Listen, hp]

/-- The sample node without an allowlist fails in `Download` and `Listen` with an empty trace. -/
theorem empty_AllowedNames_fails_before_network_witness :
    unconfiguredNode.AllowedNames = [] ∧
      unconfiguredNode.Download sampleEnv "https://updates/pkg" =
        (Outcome.returned (some (GoError.Error "AllowedNames must be specified")), []) ∧
      (unconfiguredNode.Listen sampleEnv 8443).trace = [] :=
  ⟨rfl,
    (empty_AllowedNames_fails_before_network sampleEnv unconfiguredNode
      "https://updates/pkg" 8443 rfl).1,
    (empty_AllowedNames_fails_before_network sampleEnv unconfiguredNode
      "https://updates/pkg" 8443 rfl).2.2.1⟩

/-- C5: `StopListening` is idempotent: a second call leaves the receiver as the first
call left it and closes nothing, so two calls close the listener exactly as often as one;
on a receiver that is not started the call changes no field, closes nothing and does
not fault. -/
theorem StopListening_idempotent (b : Bootstrapper) :
    b.StopListening.b.StopListening.b = b.StopListening.b ∧
      b.StopListening.b.StopListening.trace = [] ∧
      b.StopListening.trace ++ b.StopListening.b.StopListening.trace =
        b.StopListening.trace ∧
      (b.started = false →
        b.StopListening.b = b ∧ b.StopListening.trace = [] ∧
          b.StopListening.panicked = false) := by
  cases hs : b.started with
  | false => simp [Bootstrapper.StopListening, hs]
  | true =>
    cases hl : b.listener with
    | none => simp [Bootstrapper.StopListening, hs, hl]
    | some l => simp [Bootstrapper.StopListening, hs, hl]

/-- After a successful `Listen` on the sample node the first stop closes the listener once and the second closes nothing; stopping the node that never listened changes nothing. -/
theorem StopListening_idempotent_witness :
    (sampleNode.Listen sampleEnv 8443).b.started = true ∧
      (sampleNode.Listen sampleEnv 8443).b.StopListening.trace.length = 1 ∧
      (sampleNode.Listen sampleEnv 8443).b.StopListening.b.StopListening.trace = [] ∧
      sampleNode.StopListening.b = sampleNode :=
  ⟨rfl, rfl, (StopListening_idempotent (sampleNode.Listen sampleEnv 8443).b).2.1,
    ((StopListening_idempotent sampleNode).2.2.2 rfl).1⟩

/-- C6: when `Listen` returns an error on a receiver that is not started and whose join
count is zero, the receiver is still not started: `started` is false, the listener
handle and `closing` are unchanged, no serving goroutine was started, the join count is
zero and `WaitForServerToExit` returns at once. -/
theorem Listen_error_stays_NotStarted (env : Env) (b : Bootstrapper) (port : Int)
    (err : GoError) (hs : b.started = false) (hw : b.wg = 0)
    (he : (b.Listen env port).err = some err) :
    (b.Listen env port).b.started = false ∧
      (b.Listen env port).b.listener = b.listener ∧
      (b.Listen env port).b.closing = b.closing ∧
      (b.Listen env port).b.wg = 0 ∧
      (∀ l, Event.goServe l ∉ (b.Listen env port).trace) ∧
      (b.Listen env port).b.WaitForServerToExit = some () := by
  unfold Bootstrapper.Listen at he ⊢
  cases hn : b.parseNames env with
  | error e => simp [hs, hw, Bootstrapper.WaitForServerToExit]
  | ok names =>
    cases hl : env.ListenTCP port with
    | error e => simp [hs, hw, Bootstrapper.WaitForServerToExit]
    | ok tcp =>
      cases hk : env.LoadX509KeyPair b.CertFile b.KeyFile with
      | error e => simp [hs, hw, Bootstrapper.WaitForServerToExit]
      | ok kp =>
        cases hpem : (env.pemCertificates b.CACertPem).isEmpty with
        | true => simp [hs, hw, hpem, AppendCertsFromPEM, Bootstrapper.WaitForServerToExit]
        | false => simp [hn, hl, hk, hpem, AppendCertsFromPEM] at he

/-- On the sample node with a bad CA text `Listen` fails and the node is still not started with join count zero. -/
theorem Listen_error_stays_NotStarted_witness :
    (badPemNode.Listen sampleEnv 8443).err =
        some (GoError.Error "Huh? root PEM looks weird!\nnot a pem\n") ∧
      (badPemNode.Listen sampleEnv 8443).b.started = false ∧
      (badPemNode.Listen sampleEnv 8443).b.wg = 0 :=
  ⟨rfl,
    (Listen_error_stays_NotStarted sampleEnv badPemNode 8443 _ rfl rfl rfl).1,
    (Listen_error_stays_NotStarted sampleEnv badPemNode 8443 _ rfl rfl rfl).2.2.2.1⟩

/-- C9: for a non-empty AllowedNames, `parseNames` returns an error if and only if the
parser rejects some entry; the error is then the parse error of the first rejected entry
wrapped with "Invalid AllowedNames"; otherwise it returns as many names as there are
entries, the i-th being the parser's result for the i-th entry. -/
theorem parseNames_spec (env : Env) (b : Bootstrapper) (hne : b.AllowedNames ≠ []) :
    ((∃ err, b.parseNames env = Except.error err) ↔
        ∃ dn ∈ b.AllowedNames, ∃ e, env.Parse dn = Except.error e) ∧
      (∀ err, b.parseNames env = Except.error err →
        ∃ pre dn post e, b.AllowedNames = pre ++ dn :: post ∧
          (∀ d ∈ pre, ∃ n, env.Parse d = Except.ok n) ∧
          env.Parse dn = Except.error e ∧
          err = GoError.WrapError e "Invalid AllowedNames") ∧
      ((¬ ∃ dn ∈ b.AllowedNames, ∃ e, env.Parse dn = Except.error e) →
        ∃ names, b.parseNames env = Except.ok names ∧
          names.length = b.AllowedNames.length ∧
          b.AllowedNames.map env.Parse = names.map Except.ok) := by
  rw [parseNames_of_ne_nil env b hne]
  have hiff : (∃ err, parseNamesLoop env b.AllowedNames [] = Except.error err) ↔
      ∃ dn ∈ b.AllowedNames, ∃ e, env.Parse dn = Except.error e := by
    constructor
    · rintro ⟨err, h⟩
      obtain ⟨pre, dn, post, e, hl, _, hd, _⟩ := parseNamesLoop_error env _ _ _ h
      exact ⟨dn, by simp [hl], e, hd⟩
    · exact parseNamesLoop_rejects env _ []
  refine ⟨hiff, fun err h => parseNamesLoop_error env _ _ _ h, ?_⟩
  intro hno
  cases h : parseNamesLoop env b.AllowedNames [] with
  | error err => exact absurd (hiff.mp ⟨err, h⟩) hno
  | ok names =>
    obtain ⟨ns, hns, hmap⟩ := parseNamesLoop_ok env _ _ _ h
    simp only [List.nil_append] at hns
    subst hns
    refine ⟨names, rfl, ?_, hmap⟩
    have := congrArg List.length hmap
    simpa using this.symm

/-- The two entries of the sample allowlist parse into two names, in order. -/
theorem parseNames_spec_witness :
    sampleNode.AllowedNames ≠ [] ∧
      (∃ names, sampleNode.parseNames sampleEnv = Except.ok names ∧
        names.length = sampleNode.AllowedNames.length ∧
        sampleNode.AllowedNames.map sampleEnv.Parse = names.map Except.ok) :=
  ⟨by decide, (parseNames_spec sampleEnv sampleNode (by decide)).2.2
    (by simp [sampleNode, sampleEnv])⟩

/-- C2: `Install` is invoked only in a run whose response has status 200 and whose peer
chain the verifier accepted; when the response status is not 200, or the verifier
returns an error on the peer chain, `Download` returns an error and the trace holds no
installer call. -/
theorem Download_installs_only_when_ok_and_verified (env : Env) (b : Bootstrapper)
    (url : String) :
    (∀ body, Event.install body ∈ (b.Download env url).2 →
        ∃ pkixNames req client resp tlsState,
          b.parseNames env = Except.ok pkixNames ∧
          env.NewRequest "GET" url = Except.ok req ∧
          b.httpClient env = Except.ok client ∧
          env.Do client req = Except.ok resp ∧
          resp.StatusCode = StatusOK ∧
          resp.TLS = some tlsState ∧
          env.Verify { AllowedNames := pkixNames } tlsState.PeerCertificates = none) ∧
      (∀ pkixNames req client resp,
        b.parseNames env = Except.ok pkixNames →
        env.NewRequest "GET" url = Except.ok req →
        b.httpClient env = Except.ok client →
        env.Do client req = Except.ok resp →
        (resp.StatusCode ≠ StatusOK ∨
          ∃ tlsState err, resp.TLS = some tlsState ∧
            env.Verify { AllowedNames := pkixNames } tlsState.PeerCertificates = some err) →
        (∃ err, (b.Download env url).1 = Outcome.returned (some err)) ∧
          ∀ body, Event.install body ∉ (b.Download env url).2) := by
  constructor
  · intro body hmem
    unfold Bootstrapper.Download at hmem
    cases hn : b.parseNames env with
    | error e => simp [hn] at hmem
    | ok pkixNames =>
      cases hr : env.NewRequest "GET" url with
      | error e => simp [hn, hr] at hmem
      | ok req =>
        cases hc : b.httpClient env with
        | error e => simp [hn, hr, hc] at hmem
        | ok client =>
          cases hd : env.Do client req with
          | error e => simp [hn, hr, hc, hd] at hmem
          | ok resp =>
            by_cases hs : resp.StatusCode = StatusOK
            · cases ht : resp.TLS with
              | none => simp [hn, hr, hc, hd, hs, ht] at hmem
              | some tlsState =>
                cases hv : env.Verify { AllowedNames := pkixNames }
                    tlsState.PeerCertificates with
                | some e => simp [hn, hr, hc, hd, hs, ht, hv] at hmem
                | none => exact ⟨pkixNames, req, client, resp, tlsState, rfl, rfl, rfl, hd, hs, ht, hv⟩
            · simp [hn, hr, hc, hd, hs] at hmem
  · intro pkixNames req client resp hn hr hc hd h
    unfold Bootstrapper.Download
    rcases h with hs | ⟨tlsState, err, ht, hv⟩
    · simp [hn, hr, hc, hd, hs]
    · by_cases hs : resp.StatusCode = StatusOK
      · simp [hn, hr, hc, hd, hs, ht, hv]
      · simp [hn, hr, hc, hd, hs]

/-- On the sample node a 404 response and a 200 response from a peer that is not allowed both end in an error without an installer call. -/
theorem Download_installs_only_when_ok_and_verified_witness :
    ((∃ err, (sampleNode.Download sampleEnv "https://updates/missing").1 =
          Outcome.returned (some err)) ∧
        ∀ body, Event.install body ∉
          (sampleNode.Download sampleEnv "https://updates/missing").2) ∧
      ((∃ err, (sampleNode.Download sampleEnv "https://mirror/pkg").1 =
          Outcome.returned (some err)) ∧
        ∀ body, Event.install body ∉
          (sampleNode.Download sampleEnv "https://mirror/pkg").2) :=
  ⟨(Download_installs_only_when_ok_and_verified sampleEnv sampleNode
      "https://updates/missing").2 _ _ _
      { Status := "404 Not Found", StatusCode := 404,
        TLS := some { PeerCertificates := [opsCert] }, Body := [] }
      rfl rfl rfl rfl (Or.inl (by decide)),
    (Download_installs_only_when_ok_and_verified sampleEnv sampleNode
      "https://mirror/pkg").2 _ _ _
      { Status := "200 OK", StatusCode := 200,
        TLS := some { PeerCertificates := [attackerCert] }, Body := [1, 2, 3] }
      rfl rfl rfl rfl
      (Or.inr ⟨{ PeerCertificates := [attackerCert] },
        GoError.Error "subject not allowed", rfl, rfl⟩)⟩

/-- C7: in a run of `Download` whose response has status 200 and whose peer chain the
verifier accepts, `Install` is invoked exactly once, on the response body, and the result
of `Download` is the result of `Install`: nil when it is nil, the same error otherwise. -/
theorem Download_returns_Install_result (env : Env) (b : Bootstrapper) (url : String)
    (pkixNames : List Name) (req : Request) (client : Client) (resp : Response)
    (tlsState : ConnectionState)
    (hn : b.parseNames env = Except.ok pkixNames)
    (hr : env.NewRequest "GET" url = Except.ok req)
    (hc : b.httpClient env = Except.ok client)
    (hd : env.Do client req = Except.ok resp)
    (hs : resp.StatusCode = StatusOK)
    (ht : resp.TLS = some tlsState)
    (hv : env.Verify { AllowedNames := pkixNames } tlsState.PeerCertificates = none) :
    (b.Download env url).1 = Outcome.returned (b.PackageInstaller.Install resp.Body) ∧
      (b.Download env url).2.filter Event.isInstall = [Event.install resp.Body] := by
  unfold Bootstrapper.Download
  cases hi : b.PackageInstaller.Install resp.Body with
  | none => simp [hn, hr, hc, hd, hs, ht, hv, hi, List.filter_cons, Event.isInstall]
  | some e => simp [hn, hr, hc, hd, hs, ht, hv, hi, List.filter_cons, Event.isInstall]

/-- On the sample node an accepted package gives nil and a rejected one gives the error of the installer, each after one installer call. -/
theorem Download_returns_Install_result_witness :
    ((sampleNode.Download sampleEnv "https://updates/pkg").1 = Outcome.returned none ∧
        (sampleNode.Download sampleEnv "https://updates/pkg").2.filter Event.isInstall =
          [Event.install [1, 2, 3]]) ∧
      ((sampleNode.Download sampleEnv "https://updates/broken").1 =
          Outcome.returned (some (GoError.Error "malformed package")) ∧
        (sampleNode.Download sampleEnv "https://updates/broken").2.filter Event.isInstall =
          [Event.install [9]]) :=
  ⟨Download_returns_Install_result sampleEnv sampleNode "https://updates/pkg" _ _ _
      { Status := "200 OK", StatusCode := 200,
        TLS := some { PeerCertificates := [opsCert] }, Body := [1, 2, 3] }
      { PeerCertificates := [opsCert] } rfl rfl rfl rfl rfl rfl rfl,
    Download_returns_Install_result sampleEnv sampleNode "https://updates/broken" _ _ _
      { Status := "200 OK", StatusCode := 200,
        TLS := some { PeerCertificates := [opsCert] }, Body := [9] }
      { PeerCertificates := [opsCert] } rfl rfl rfl rfl rfl rfl rfl⟩

/-- C3: where the code departs from the claim. With parseable AllowedNames, a free port
and a loadable key pair, a CA text that holds no certificate makes `Listen` return its
error only after `net.ListenTCP` has bound the port: the bound listener is in the trace,
it is never closed, and the receiver keeps no handle to it. On the sample node with the
CA text "not a pem" this happens on port 8443, while `Download` does fail before the
round trip. -/
theorem Listen_binds_port_before_checking_CA_pem :
    (∀ (env : Env) (b : Bootstrapper) (port : Int) (pkixNames : List Name)
        (tcp : TCPListener) (serverCert : TlsCertificate),
        b.parseNames env = Except.ok pkixNames →
        env.ListenTCP port = Except.ok tcp →
        env.LoadX509KeyPair b.CertFile b.KeyFile = Except.ok serverCert →
        env.pemCertificates b.CACertPem = [] →
        (b.Listen env port).err =
            some (GoError.Error ("Huh? root PEM looks weird!\n" ++ b.CACertPem ++ "\n")) ∧
          Event.listenTCP port (some tcp) ∈ (b.Listen env port).trace ∧
          (∀ l, Event.close l ∉ (b.Listen env port).trace) ∧
          (b.Listen env port).b.listener = b.listener) ∧
      sampleEnv.pemCertificates badPemNode.CACertPem = [] ∧
      (badPemNode.Listen sampleEnv 8443).err =
        some (GoError.Error "Huh? root PEM looks weird!\nnot a pem\n") ∧
      (badPemNode.Listen sampleEnv 8443).trace =
        [Event.listenTCP 8443 (some sampleTCP),
         Event.loadX509KeyPair "agent.crt" "agent.key"] ∧
      (badPemNode.Listen sampleEnv 8443).b.listener = none ∧
      badPemNode.Download sampleEnv "https://updates/pkg" =
        (Outcome.returned (some (GoError.Error "Failed to load CA cert")),
          [Event.log LogLevel.Info "Download" "Downloading %s...",
           Event.newRequest "GET" "https://updates/pkg",
           Event.log LogLevel.Error "Download" "Couldn't make the http client %s"]) := by
  refine ⟨?_, rfl, rfl, rfl, rfl, rfl⟩
  intro env b port pkixNames tcp serverCert hn hl hk hpem
  simp [Bootstrapper.Listen, hn, hl, hk, hpem, AppendCertsFromPEM]

/-- C4: where the code departs from the claim. Every client `httpClient` builds trusts
exactly the certificates of CACertPem, but its TLS configuration carries no client
certificate at all (CertFile and KeyFile are not read; only the server-side field
`ClientAuth` is set). On the sample node the client is the one displayed. -/
theorem httpClient_has_no_client_certificate :
    (∀ (env : Env) (b : Bootstrapper) (client : Client),
        b.httpClient env = Except.ok client →
        client.Transport.TLSClientConfig =
          some { RootCAs := some (env.pemCertificates b.CACertPem)
                 Certificates := []
                 ClientAuth := ClientAuthType.RequireAndVerifyClientCert }) ∧
      sampleEnv.LoadX509KeyPair sampleNode.CertFile sampleNode.KeyFile =
        Except.ok sampleKeyPair ∧
      sampleNode.httpClient sampleEnv =
        Except.ok { Transport := { TLSClientConfig := some (TlsConfig.mk
          (some [sampleCA]) [] [] ClientAuthType.RequireAndVerifyClientCert none) } } := by
  refine ⟨?_, rfl, rfl⟩
  intro env b client h
  unfold Bootstrapper.httpClient at h
  cases hpem : (env.pemCertificates b.CACertPem).isEmpty with
  | true => simp [AppendCertsFromPEM, hpem] at h
  | false =>
    simp only [AppendCertsFromPEM, hpem, List.nil_append, Bool.not_false, Bool.not_true,
      Bool.false_eq_true, if_false, Except.ok.injEq] at h
    rw [← h]

/-- C8: where the code departs from the claim. `Listen` never clears `closing`, and the
serving goroutine prints nothing once `closing` is set. So after Listen, StopListening,
Listen on the sample node (both Listens succeed, and no StopListening follows the second
one) the receiver is started with `closing` still set, and an error with which the second
serving goroutine ends is not printed. -/
theorem stale_closing_suppresses_later_serve_error :
    (∀ (env : Env) (b : Bootstrapper) (port : Int),
        (b.Listen env port).b.closing = b.closing) ∧
      (∀ (b : Bootstrapper) (err : GoError),
        b.closing = true → (b.serveReturned (some err)).2 = []) ∧
      (sampleNode.Listen sampleEnv 8443).err = none ∧
      ((sampleNode.controls sampleEnv
          [Control.Listen 8443, Control.StopListening]).Listen sampleEnv 8443).err = none ∧
      (sampleNode.controls sampleEnv
          [Control.Listen 8443, Control.StopListening, Control.Listen 8443]).started = true ∧
      (sampleNode.controls sampleEnv
          [Control.Listen 8443, Control.StopListening, Control.Listen 8443]).closing = true ∧
      ((sampleNode.controls sampleEnv
          [Control.Listen 8443, Control.StopListening, Control.Listen 8443]).serveReturned
            (some (GoError.Error "accept tcp: too many open files"))).2 = [] ∧
      ((sampleNode.controls sampleEnv [Control.Listen 8443]).serveReturned
            (some (GoError.Error "accept tcp: too many open files"))).2 =
        [Event.printf "run(): %s\n" (GoError.Error "accept tcp: too many open files")] := by
  refine ⟨?_, ?_, rfl, rfl, rfl, rfl, rfl, rfl⟩
  · intro env b port
    unfold Bootstrapper.Listen
    cases hn : b.parseNames env with
    | error e => rfl
    | ok names =>
      cases hl : env.ListenTCP port with
      | error e => rfl
      | ok tcp =>
        cases hk : env.LoadX509KeyPair b.CertFile b.KeyFile with
        | error e => rfl
        | ok kp =>
          cases hpem : (env.pemCertificates b.CACertPem).isEmpty with
          | true => simp [hpem, AppendCertsFromPEM]
          | false => simp [hpem, AppendCertsFromPEM]
  · intro b err hc
    simp [Bootstrapper.serveReturned, hc]

/-- C10: where the code departs from the claim. On a response with status 200 that
carries no TLS state, `Download` does not return: it faults on the nil dereference
`resp.TLS.PeerCertificates`, after the round trip. The sample node does so on the plain
http url. -/
theorem Download_faults_on_response_without_TLS :
    (∀ (env : Env) (b : Bootstrapper) (url : String) (pkixNames : List Name)
        (req : Request) (client : Client) (resp : Response),
        b.parseNames env = Except.ok pkixNames →
        env.NewRequest "GET" url = Except.ok req →
        b.httpClient env = Except.ok client →
        env.Do client req = Except.ok resp →
        resp.StatusCode = StatusOK →
        resp.TLS = none →
        (b.Download env url).1 = Outcome.panicked "nil pointer dereference") ∧
      sampleNode.Download sampleEnv "http://updates/pkg" =
        (Outcome.panicked "nil pointer dereference",
          [Event.log LogLevel.Info "Download" "Downloading %s...",
           Event.newRequest "GET" "http://updates/pkg",
           Event.roundTrip { Method := "GET", URL := "http://updates/pkg" }]) := by
  refine ⟨?_, rfl⟩
  intro env b url pkixNames req client resp hn hr hc hd hs ht
  simp [Bootstrapper.Download, hn, hr, hc, hd, hs, ht]

end bootstrapper
